import Mathlib

/-!
Verification development for the things-mcp repository.

This file gives a shallow embedding, in Lean, of the core functions of the
repository (the sparse compressor `compressObject`, the date codec
`formatDate`, the row query executor `executeSqlQuery`, the URL builder
`buildThingsUrl`, the summary assembler `getThingsSummary`, and the mutation
tools `update_todo` / `update_project` / `remove_todo` / `remove_project`),
and proves or refutes the stated properties about them.

JavaScript builtin functions used by the code (`parseInt`, `parseFloat`,
`encodeURIComponent`, `JSON.stringify`, `Date.prototype.toISOString`,
`String.prototype.split` / `trim`) are modelled as executable Lean functions
at the boundary, following the ECMAScript semantics that the repository
relies on.
-/

namespace ThingsMcp

/-! ## JavaScript builtin models -/

/-- The whitespace class trimmed/skipped by JavaScript string functions. -/
def isJsWhitespace (c : Char) : Bool :=
  c = ' ' || c = '\t' || c = '\n' || c = '\r' || c = '\x0b' || c = '\x0c' ||
  c.toNat = 0xa0 || c.toNat = 0x2028 || c.toNat = 0x2029 || c.toNat = 0xfeff

/-- Model of JavaScript `String.prototype.trim`. -/
def jsTrim (s : String) : String :=
  String.mk (((s.data.dropWhile isJsWhitespace).reverse.dropWhile isJsWhitespace).reverse)

/-- Model of `String.prototype.split` with a one-character separator, on character
lists: splitting the empty string gives one empty group. -/
def splitOnChar (sep : Char) : List Char → List (List Char)
  | [] => [[]]
  | c :: cs =>
    if c = sep then [] :: splitOnChar sep cs
    else
      match splitOnChar sep cs with
      | [] => [[c]]
      | g :: gs => (c :: g) :: gs

/-- Model of JavaScript `s.split(sep)` for a one-character separator. -/
def jsSplit (s : String) (sep : Char) : List String :=
  (splitOnChar sep s.data).map String.mk

/-- Leading decimal-digit run of a character list, as a natural number.
`none` when the list does not start with a digit. -/
def leadingDigits (cs : List Char) : Option Nat :=
  let ds := cs.takeWhile Char.isDigit
  if ds.isEmpty then none
  else some (ds.foldl (fun a c => a * 10 + (c.toNat - 48)) 0)

/-- Model of JavaScript `parseInt(s)` (radix 10): skip leading whitespace,
optional sign, then the leading run of decimal digits; `none` models `NaN`. -/
def jsParseInt (s : String) : Option Int :=
  match (jsTrim s).data with
  | '-' :: rest => (leadingDigits rest).map (fun n => -(n : Int))
  | '+' :: rest => (leadingDigits rest).map (fun n => (n : Int))
  | cs => (leadingDigits cs).map (fun n => (n : Int))

/-- Value of the leading digit run together with the remaining characters. -/
def digitsAndRest (cs : List Char) : Nat × Nat × List Char :=
  let ds := cs.takeWhile Char.isDigit
  (ds.foldl (fun a c => a * 10 + (c.toNat - 48)) 0, ds.length, cs.dropWhile Char.isDigit)

/-- Model of JavaScript `parseFloat(s)`: skip leading whitespace, optional
sign, then `digits [. digits] [e sign digits]`; `none` models `NaN`. -/
def jsParseFloat (s : String) : Option Rat :=
  match (jsTrim s).data with
  | '-' :: rest => (jsParseFloatCore rest).map (fun q => -q)
  | '+' :: rest => jsParseFloatCore rest
  | cs => jsParseFloatCore cs
where
  jsParseFloatCore (cs : List Char) : Option Rat :=
    let (ip, ilen, rest) := digitsAndRest cs
    let (fp, flen, rest2) :=
      match rest with
      | '.' :: r => digitsAndRest r
      | _ => (0, 0, rest)
    if ilen = 0 ∧ flen = 0 then none
    else
      let base : Rat := (ip : Rat) + (fp : Rat) / ((10 : Rat) ^ flen)
      let (esign, rest3) :=
        match rest2 with
        | 'e' :: '-' :: r => ((-1 : Int), r)
        | 'e' :: '+' :: r => ((1 : Int), r)
        | 'e' :: r => ((1 : Int), r)
        | 'E' :: '-' :: r => ((-1 : Int), r)
        | 'E' :: '+' :: r => ((1 : Int), r)
        | 'E' :: r => ((1 : Int), r)
        | _ => ((0 : Int), rest2)
      match esign, leadingDigits rest3 with
      | 0, _ => some base
      | sgn, some e => some (base * (10 : Rat) ^ (sgn * (e : Int)))
      | _, none => some base

/-- Characters left unescaped by JavaScript `encodeURIComponent`. -/
def isUriUnreserved (c : Char) : Bool :=
  c.isAlphanum || c = '-' || c = '_' || c = '.' || c = '!' || c = '~' ||
  c = '*' || c = '\'' || c = '(' || c = ')'

/-- Uppercase hexadecimal digit. -/
def hexDigit (n : Nat) : Char :=
  if n < 10 then Char.ofNat (48 + n) else Char.ofNat (55 + n)

/-- UTF-8 byte sequence of a scalar value. -/
def utf8Bytes (c : Char) : List Nat :=
  let n := c.toNat
  if n < 0x80 then [n]
  else if n < 0x800 then [0xC0 ||| (n >>> 6), 0x80 ||| (n &&& 0x3F)]
  else if n < 0x10000 then
    [0xE0 ||| (n >>> 12), 0x80 ||| ((n >>> 6) &&& 0x3F), 0x80 ||| (n &&& 0x3F)]
  else
    [0xF0 ||| (n >>> 18), 0x80 ||| ((n >>> 12) &&& 0x3F),
     0x80 ||| ((n >>> 6) &&& 0x3F), 0x80 ||| (n &&& 0x3F)]

/-- Percent-encoding of one byte, uppercase, as in `encodeURIComponent`. -/
def percentByte (b : Nat) : String :=
  String.mk ['%', hexDigit (b / 16), hexDigit (b % 16)]

/-- Model of JavaScript `encodeURIComponent`. -/
def encodeURIComponent (s : String) : String :=
  s.toList.foldl
    (fun acc c =>
      if isUriUnreserved c then acc.push c
      else acc ++ String.join ((utf8Bytes c).map percentByte))
    ""

/-! ## Sparse compressor (`compressObject`, src/unnamed/part_003 lines 216-243)

JavaScript values are modelled by `JVal`; `JVal.vundef` stands for
`undefined` and is also the "absent" result of compression. -/

inductive JVal where
  | vnull : JVal
  | vundef : JVal
  | vbool : Bool → JVal
  | vnum : Int → JVal
  | vstr : String → JVal
  | varr : List JVal → JVal
  | vobj : List (String × JVal) → JVal
deriving Repr

/-- Holds for the values kept by the array filter
`item !== null && item !== undefined`. -/
def keptInArray : JVal → Bool
  | .vnull => false
  | .vundef => false
  | _ => true

/-- JavaScript property read `v[key] === 0` for a number property:
only an object with that field bound to the number compares equal. -/
def fieldIsZero (fs : List (String × JVal)) (key : String) : Bool :=
  match fs.find? (fun p => p.1 == key) with
  | some (_, .vnum n) => n == 0
  | _ => false

/-- The omission test on an object field of `compressObject`
(`src/unnamed/part_003` lines 228-233): `compressedValue === null ||
=== undefined || === '' || empty array || (key === 'checklistItems' &&
compressedValue.total === 0 && compressedValue.open === 0)`. -/
def dropField (key : String) (cv : JVal) : Bool :=
  match cv with
  | .vnull => true
  | .vundef => true
  | .vstr s => s == ""
  | .varr l => l.isEmpty
  | .vobj fs => key == "checklistItems" && fieldIsZero fs "total" && fieldIsZero fs "open"
  | _ => false

mutual

/-- Shallow embedding of `compressObject` (src/unnamed/part_003 216-243). -/
def compressObject : JVal → JVal
  | .varr l =>
    let f := (compressList l).filter keptInArray
    if f.isEmpty then .vundef else .varr f
  | .vobj fs =>
    let kept := compressFields fs
    if kept.isEmpty then .vundef else .vobj kept
  | v => v

/-- The map `obj.map(compressObject)` over an array. -/
def compressList : List JVal → List JVal
  | [] => []
  | v :: vs => compressObject v :: compressList vs

/-- The field loop of `compressObject`: compress each field value and keep
the field unless `dropField` holds of the compressed value. -/
def compressFields : List (String × JVal) → List (String × JVal)
  | [] => []
  | (k, v) :: fs =>
    let cv := compressObject v
    if dropField k cv then compressFields fs
    else (k, cv) :: compressFields fs

end

/-- A `{total: 0, open: 0}` checklist-counter pair, as a value. -/
def isZeroZeroPair : JVal → Bool
  | .vobj fs => fieldIsZero fs "total" && fieldIsZero fs "open"
  | _ => false

mutual

/-- The defect predicate of the claim: the tree contains, at some depth, an
empty object, an empty array, an empty-string value, or a zero-zero
checklist-counter pair. -/
def containsBad : JVal → Bool
  | .vstr s => s == ""
  | .varr l => l.isEmpty || containsBadList l
  | .vobj fs => fs.isEmpty || isZeroZeroPair (.vobj fs) || containsBadFields fs
  | _ => false

def containsBadList : List JVal → Bool
  | [] => false
  | v :: vs => containsBad v || containsBadList vs

def containsBadFields : List (String × JVal) → Bool
  | [] => false
  | p :: fs => containsBad p.2 || containsBadFields fs

end

mutual

/-- The invariant `compressObject` actually guarantees of its output:
every array in the tree is non-empty and holds no `null`/`undefined`
element, and every object in the tree is non-empty with each field passing
the drop test (so no field holds `null`, `undefined`, an empty string, an
empty array, or a zero-zero `checklistItems` pair). -/
def cleanOut : JVal → Bool
  | .varr l => !l.isEmpty && cleanArr l
  | .vobj fs => !fs.isEmpty && cleanObj fs
  | _ => true

def cleanArr : List JVal → Bool
  | [] => true
  | v :: vs => keptInArray v && cleanOut v && cleanArr vs

def cleanObj : List (String × JVal) → Bool
  | [] => true
  | p :: fs => !dropField p.1 p.2 && cleanOut p.2 && cleanObj fs

end

/-! ## Date codec (`formatDate`, src/unnamed/part_003 lines 159-192) -/

/-- Left-pad with zeros, as in JavaScript `padStart(n, '0')`. -/
def padLeftZeros (s : String) (n : Nat) : String :=
  if n ≤ s.length then s else String.mk (List.replicate (n - s.length) '0') ++ s

/-- Days since 1970-01-01 to a `(year, month, day)` civil date
(the standard days-from-civil inverse used by ECMAScript date math). -/
def civilFromDays (z : Int) : Int × Nat × Nat :=
  let zs := z + 719468
  let era : Int := Int.fdiv zs 146097
  let doe : Nat := (zs - era * 146097).toNat
  let yoe : Nat := (doe - doe / 1460 + doe / 36524 - doe / 146096) / 365
  let y : Int := (yoe : Int) + era * 400
  let doy : Nat := doe - (365 * yoe + yoe / 4 - yoe / 100)
  let mp : Nat := (5 * doy + 2) / 153
  let d : Nat := doy - (153 * mp + 2) / 5 + 1
  let m : Nat := if mp < 10 then mp + 3 else mp - 9
  (if m ≤ 2 then y + 1 else y, m, d)

/-- Year formatting of `Date.prototype.toISOString`: four digits for
0..9999, otherwise an explicit sign and six digits. -/
def isoYearString (y : Int) : String :=
  if 0 ≤ y ∧ y ≤ 9999 then padLeftZeros (toString y) 4
  else (if y < 0 then "-" else "+") ++ padLeftZeros (toString y.natAbs) 6

/-- The date part (before `T`) of `Date.prototype.toISOString` for an epoch
day number. -/
def isoDateOfDay (day : Int) : String :=
  let c := civilFromDays day
  isoYearString c.1 ++ "-" ++ padLeftZeros (toString c.2.1) 2 ++ "-" ++
    padLeftZeros (toString c.2.2) 2

/-- JavaScript number-to-integer truncation (toward zero). -/
def jsTrunc (q : Rat) : Int :=
  if q < 0 then -((-q).floor) else q.floor

/-- Model of `new Date(ms).toISOString().split('T')[0]`: invalid (thrown `RangeError`)
when the clipped time value exceeds the ECMAScript ±8.64e15 ms range, else
the calendar date of the epoch-millisecond value. -/
def toISODatePart (ms : Rat) : Except Unit String :=
  if (8640000000000000 : Rat) < |ms| then .error ()
  else .ok (isoDateOfDay (Int.fdiv (jsTrunc ms) 86400000))

/-- Low 32 bits of an integer (JavaScript `ToUint32`). -/
def toUint32 (n : Int) : Nat :=
  (n % (4294967296 : Int)).toNat

/-- JavaScript 32-bit `&` against a non-negative mask below `2^31`. -/
def jsAnd32 (a : Int) (mask : Nat) : Nat :=
  Nat.land (toUint32 a) mask

/-- The bit-packed branch of `formatDate` (part_003 lines 165-183): year in
bits 16-26, month in bits 12-15, day in bits 7-11; `NaN` and `0` decode to
the empty string. -/
def formatDatePacked (timestamp : String) : String :=
  match jsParseInt timestamp with
  | none => ""
  | some thingsDate =>
    if thingsDate = 0 then ""
    else
      let yMask : Nat := 0b111111111110000000000000000
      let mMask : Nat := 0b000000000001111000000000000
      let dMask : Nat := 0b000000000000000111110000000
      let year := (jsAnd32 thingsDate yMask) >>> 16
      let month := (jsAnd32 thingsDate mMask) >>> 12
      let day := (jsAnd32 thingsDate dMask) >>> 7
      toString year ++ "-" ++ padLeftZeros (toString month) 2 ++ "-" ++
        padLeftZeros (toString day) 2

/-- The body of the `try` block of `formatDate`: `.error` marks a thrown
exception (only the epoch branch can throw, via `toISOString` on an invalid
date). -/
def formatDateBody (timestamp : String) (isDateField : Bool) : Except Unit String :=
  if isDateField then .ok (formatDatePacked timestamp)
  else
    match jsParseFloat timestamp with
    | none => .error ()
    | some q => toISODatePart (q * 1000)

/-- Shallow embedding of `formatDate` (src/unnamed/part_003 lines 159-192):
blank and `"NULL"` inputs return `''` immediately; any exception in the body
is caught and degraded to `''`. The empty string is the code's "absent"
value. -/
def formatDate (timestamp : String) (isDateField : Bool) : String :=
  if timestamp = "" || timestamp = "NULL" then ""
  else
    match formatDateBody timestamp isDateField with
    | .ok s => s
    | .error _ => ""

/-! ## Row query executor (`executeSqlQuery`, src/unnamed/part_003 139-157) -/

/-- The shell command handed to `execSync`. -/
def sqlCommandString (dbPath query : String) : String :=
  "sqlite3 \"" ++ dbPath ++ "\" \"" ++ query ++ "\""

/-- Shallow embedding of `executeSqlQuery`. The external process is the
parameter `proc`: `.error` models a non-zero exit or I/O failure thrown by
`execSync` (caught by the function), `.ok` its captured standard output. -/
def executeSqlQuery (proc : String → Except Unit String) (dbPath query : String) :
    List (List String) :=
  match proc (sqlCommandString dbPath query) with
  | .error _ => []
  | .ok result =>
    if jsTrim result = "" then []
    else (jsSplit (jsTrim result) '\n').map (fun row => jsSplit row '|')

/-! ## Write channel: URL builder (src/unnamed/part_007) and JSON
operations (src/src/utils/json-operations via update-project) -/

/-- One attribute value of a JSON operation. -/
inductive JAttr where
  | jbool : Bool → JAttr
  | jstr : String → JAttr
deriving Repr, DecidableEq

/-- A structured JSON operation (`JsonOperation` interface). -/
structure JsonOperation where
  type : String
  operation : String
  id : String
  attributes : List (String × JAttr)
deriving Repr, DecidableEq

/-- JSON string escaping used by `JSON.stringify`. -/
def jsonEscapeChar (c : Char) : String :=
  if c = '"' then "\\\""
  else if c = '\\' then "\\\\"
  else if c = '\n' then "\\n"
  else if c = '\r' then "\\r"
  else if c = '\t' then "\\t"
  else if c = '\x08' then "\\b"
  else if c = '\x0c' then "\\f"
  else if c.toNat < 0x20 then
    "\\u00" ++ String.mk [hexDigit (c.toNat / 16), hexDigit (c.toNat % 16)]
  else String.singleton c

/-- A JSON string literal. -/
def jsonQuote (s : String) : String :=
  "\"" ++ String.join (s.toList.map jsonEscapeChar) ++ "\""

/-- Rendering of an attribute value by `JSON.stringify`. -/
def jsonOfAttr : JAttr → String
  | .jbool b => toString b
  | .jstr s => jsonQuote s

/-- Rendering of one `JsonOperation` by `JSON.stringify` (insertion order of the object
literal: type, operation, id, attributes). -/
def jsonOfOp (op : JsonOperation) : String :=
  "\x7b\"type\":" ++ jsonQuote op.type ++ ",\"operation\":" ++
    jsonQuote op.operation ++ ",\"id\":" ++ jsonQuote op.id ++
    ",\"attributes\":\x7b" ++
    String.intercalate ","
      (op.attributes.map (fun p => jsonQuote p.1 ++ ":" ++ jsonOfAttr p.2)) ++
    "\x7d\x7d"

/-- Rendering of an array of operations by `JSON.stringify`. -/
def jsonOfOps (l : List JsonOperation) : String :=
  "[" ++ String.intercalate "," (l.map jsonOfOp) ++ "]"

/-- A parameter value handed to `buildThingsUrl` (`Record<string, any>`):
the value shapes the repository actually passes. -/
inductive PV where
  | str : String → PV
  | bool : Bool → PV
  | num : Int → PV
  | arr : List String → PV
  | data : List JsonOperation → PV
  | null : PV
  | undef : PV
deriving Repr, DecidableEq

/-- The truthiness test of `buildThingsUrl`:
`value !== undefined && value !== null && value !== ''`. -/
def pvDefined : PV → Bool
  | .undef => false
  | .null => false
  | .str s => s != ""
  | _ => true

/-- JavaScript `String(value)` for the shapes above; arrays are joined with
commas (matching `Array.isArray(value) ? value.join(',') : String(value)`). -/
def pvString : PV → String
  | .str s => s
  | .bool b => toString b
  | .num n => toString n
  | .arr l => String.intercalate "," l
  | .data ops => String.intercalate "," (ops.map (fun _ => "[object Object]"))
  | .null => "null"
  | .undef => "undefined"

/-- Rendering `JSON.stringify(value)` for the shapes above (used only for the `data`
parameter of a `json` command). -/
def pvJsonString : PV → String
  | .str s => jsonQuote s
  | .bool b => toString b
  | .num n => toString n
  | .arr l => "[" ++ String.intercalate "," (l.map jsonQuote) ++ "]"
  | .data ops => jsonOfOps ops
  | .null => "null"
  | .undef => "undefined"

/-- The encoded value of one query parameter (part_007 lines 14-24). -/
def encodePV (command key : String) (v : PV) : String :=
  if key = "data" ∧ command = "json" then encodeURIComponent (pvJsonString v)
  else encodeURIComponent (pvString v)

/-- The `queryParts` loop of `buildThingsUrl` (part_007 lines 12-26):
parameters bound to `undefined`, `null`, or `''` are skipped; the rest
contribute `encodeURIComponent(key)=encodedValue` in order. -/
def buildQueryParts (command : String) : List (String × PV) → List String
  | [] => []
  | (k, v) :: rest =>
    if pvDefined v then
      (encodeURIComponent k ++ "=" ++ encodePV command k v) ::
        buildQueryParts command rest
    else buildQueryParts command rest

/-- Shallow embedding of `buildThingsUrl` (src/unnamed/part_007 lines 8-31). -/
def buildThingsUrl (command : String) (params : List (String × PV)) : String :=
  let baseUrl := "things:///" ++ command
  let queryString := String.intercalate "&" (buildQueryParts command params)
  if queryString ≠ "" then baseUrl ++ "?" ++ queryString else baseUrl

/-- Embedding of `executeJsonOperation` (json-operations.ts): wraps the operation in a
one-element array and dispatches a `json` command URL. -/
def executeJsonOperationUrl (op : JsonOperation) (authToken : String) : String :=
  buildThingsUrl "json" [("data", PV.data [op]), ("auth-token", PV.str authToken)]

/-! ## Mutation tools (src/src/tools/update-todo.ts, update-project.ts,
remove-todo.ts, remove-project.ts; src/src/utils/auth, applescript) -/

/-- Embedding of `requireAuthToken` (auth.ts): the token comes from the environment
(`none` = unset); unset or empty is a thrown error. -/
def requireAuthToken (env : Option String) : Except String String :=
  match env with
  | none => .error "THINGS_AUTH_TOKEN environment variable is required for update operations"
  | some t =>
    if t = "" then
      .error "THINGS_AUTH_TOKEN environment variable is required for update operations"
    else .ok t

/-- The parameter record of the `update_todo` tool. -/
structure UpdateTodoParams where
  id : String
  title : Option String := none
  notes : Option String := none
  prependNotes : Option String := none
  appendNotes : Option String := none
  whenSched : Option String := none
  deadline : Option String := none
  tags : Option (List String) := none
  addTags : Option (List String) := none
  checklistItems : Option (List String) := none
  prependChecklistItems : Option (List String) := none
  appendChecklistItems : Option (List String) := none
  projectId : Option String := none
  projectName : Option String := none
  areaId : Option String := none
  areaName : Option String := none
  headingId : Option String := none
  headingName : Option String := none
  completed : Option Bool := none
  canceled : Option Bool := none
  creationDate : Option String := none
  completionDate : Option String := none
deriving Repr, DecidableEq

/-- Embedding of `if (params.x) urlParams[k] = params.x` for a string field (JavaScript
truthiness: absent and empty string are both skipped). -/
def optStrParam (key : String) : Option String → List (String × PV)
  | some s => if s = "" then [] else [(key, PV.str s)]
  | none => []

/-- Embedding of `if (params.x) urlParams[k] = params.x.join(',')` for an array field
(an array is always truthy, even when empty). -/
def optJoinParam (key : String) : Option (List String) → List (String × PV)
  | some l => [(key, PV.str (String.intercalate "," l))]
  | none => []

/-- Embedding of `if (params.x !== undefined) urlParams[k] = params.x` for a boolean. -/
def optBoolParam (key : String) : Option Bool → List (String × PV)
  | some b => [(key, PV.bool b)]
  | none => []

/-- The `urlParams` record built by `update_todo` (update-todo.ts 84-110),
in insertion order. -/
def updateTodoUrlParams (authToken : String) (p : UpdateTodoParams) :
    List (String × PV) :=
  [("id", PV.str p.id), ("auth-token", PV.str authToken)] ++
  optStrParam "title" p.title ++
  optStrParam "notes" p.notes ++
  optStrParam "prepend-notes" p.prependNotes ++
  optStrParam "append-notes" p.appendNotes ++
  optStrParam "when" p.whenSched ++
  optStrParam "deadline" p.deadline ++
  optJoinParam "tags" p.tags ++
  optJoinParam "add-tags" p.addTags ++
  optJoinParam "checklist-items" p.checklistItems ++
  optJoinParam "prepend-checklist-items" p.prependChecklistItems ++
  optJoinParam "append-checklist-items" p.appendChecklistItems ++
  optStrParam "list-id" p.projectId ++
  optStrParam "list" p.projectName ++
  optStrParam "area-id" p.areaId ++
  optStrParam "area" p.areaName ++
  optStrParam "heading-id" p.headingId ++
  optStrParam "heading" p.headingName ++
  optBoolParam "completed" p.completed ++
  optBoolParam "canceled" p.canceled ++
  optStrParam "creation-date" p.creationDate ++
  optStrParam "completion-date" p.completionDate

/-- The URLs opened by one `update_todo` call once the token is in hand:
always exactly one URL-scheme command (update-todo.ts 112-115). -/
def updateTodoDispatch (authToken : String) (p : UpdateTodoParams) : List String :=
  [buildThingsUrl "update" (updateTodoUrlParams authToken p)]

/-- The parameter record of the `update_project` tool. -/
structure UpdateProjectParams where
  id : String
  title : Option String := none
  notes : Option String := none
  prependNotes : Option String := none
  appendNotes : Option String := none
  whenSched : Option String := none
  deadline : Option String := none
  tags : Option (List String) := none
  addTags : Option (List String) := none
  areaId : Option String := none
  areaName : Option String := none
  completed : Option Bool := none
  canceled : Option Bool := none
  creationDate : Option String := none
  completionDate : Option String := none
deriving Repr, DecidableEq

/-- The JSON operation built by `update_project` when `completed` or
`canceled` is present (update-project.ts 64-84): only the terminal-state
attributes (and the completion date, under `completed`) are carried. -/
def buildProjectJsonOp (p : UpdateProjectParams) : JsonOperation :=
  { type := "project"
  , operation := "update"
  , id := p.id
  , attributes :=
      (match p.completed with
       | some c =>
         ("completed", JAttr.jbool c) ::
           (match p.completionDate with
            | some cd => if cd = "" then [] else [("completion-date", JAttr.jstr cd)]
            | none => [])
       | none => []) ++
      (match p.canceled with
       | some c => [("canceled", JAttr.jbool c)]
       | none => []) }

/-- The `urlParams` record built by the URL-scheme branch of
`update_project` (update-project.ts 88-104). -/
def updateProjectUrlParams (authToken : String) (p : UpdateProjectParams) :
    List (String × PV) :=
  [("id", PV.str p.id), ("auth-token", PV.str authToken)] ++
  optStrParam "title" p.title ++
  optStrParam "notes" p.notes ++
  optStrParam "prepend-notes" p.prependNotes ++
  optStrParam "append-notes" p.appendNotes ++
  optStrParam "when" p.whenSched ++
  optStrParam "deadline" p.deadline ++
  optJoinParam "tags" p.tags ++
  optJoinParam "add-tags" p.addTags ++
  optStrParam "area-id" p.areaId ++
  optStrParam "area" p.areaName ++
  optStrParam "creation-date" p.creationDate

/-- The URLs opened by one `update_project` call once the token is in hand:
a single JSON operation when a terminal-state field is present (dropping all
other fields), otherwise a single URL-scheme command (update-project.ts
63-110). -/
def updateProjectDispatch (authToken : String) (p : UpdateProjectParams) :
    List String :=
  if p.completed.isSome || p.canceled.isSome then
    [executeJsonOperationUrl (buildProjectJsonOp p) authToken]
  else
    [buildThingsUrl "update-project" (updateProjectUrlParams authToken p)]

/-- The `update_todo` tool handler: requires the auth token before any command
is built; on success returns the dispatched URL list. -/
def updateTodoAction (env : Option String) (p : UpdateTodoParams) :
    Except String (List String) :=
  match requireAuthToken env with
  | .error e => .error e
  | .ok tok => .ok (updateTodoDispatch tok p)

/-- The `update_project` tool handler. -/
def updateProjectAction (env : Option String) (p : UpdateProjectParams) :
    Except String (List String) :=
  match requireAuthToken env with
  | .error e => .error e
  | .ok tok => .ok (updateProjectDispatch tok p)

/-- The AppleScript source built by `deleteTodo` (applescript.ts 436-445). -/
def deleteTodoScript (id : String) : String :=
  "\n    tell application \"Things3\"\n      delete to do id \"" ++ id ++
    "\"\n    end tell\n  "

/-- The AppleScript source built by `deleteProject` (applescript.ts 447-456). -/
def deleteProjectScript (id : String) : String :=
  "\n    tell application \"Things3\"\n      delete project id \"" ++ id ++
    "\"\n    end tell\n  "

/-- The `remove_todo` tool handler (remove-todo.ts): dispatches the AppleScript
delete command without consulting any authorization token. -/
def removeTodoAction (_env : Option String) (id : String) :
    Except String (List String) :=
  .ok [deleteTodoScript id]

/-- The `remove_project` tool handler (remove-project.ts). -/
def removeProjectAction (_env : Option String) (id : String) :
    Except String (List String) :=
  .ok [deleteProjectScript id]

/-! ## Hierarchical assembler (`getThingsSummary`, src/unnamed/part_003
lines 245-436)

The SQLite database is injected as explicit row lists (the `SELECT`
statements of the code read whole tables, with the status predicate of the
tasks query modelled as a row filter); the clock reads (`new Date()`) are
injected as the `today` and `nowIso` parameters. -/

/-- One `TMTask` row: the selected columns (as the strings `sqlite3` prints)
plus the `status` and `trashed` columns consulted by the `WHERE` clause. -/
structure TaskRow where
  uuid : String
  title : String := ""
  notes : String := ""
  type : String := "0"
  creationDate : String := ""
  startDate : String := ""
  deadline : String := ""
  area : String := ""
  project : String := ""
  checklistItemsCount : String := ""
  openChecklistItemsCount : String := ""
  status : Nat := 0
  trashed : Nat := 0
deriving Repr, DecidableEq

/-- One `TMArea` row (`uuid, title, visible`). -/
structure AreaRow where
  uuid : String
  title : String := ""
  visible : String := ""
deriving Repr, DecidableEq

/-- One `TMTag` row (`uuid, title, shortcut`). -/
structure TagRow where
  uuid : String
  title : String := ""
  shortcut : String := ""
deriving Repr, DecidableEq

/-- One `TMTaskTag` association row (`tasks, tags`). -/
structure TaskTagRow where
  tasks : String
  tags : String
deriving Repr, DecidableEq

/-- The store, as the four tables the assembler reads. -/
structure ThingsDb where
  areas : List AreaRow := []
  tags : List TagRow := []
  tasks : List TaskRow := []
  taskTags : List TaskTagRow := []
deriving Repr, DecidableEq

/-- The date-range filter object of the summary schema. -/
structure DateRange where
  fromDate : Option String := none
  toDate : Option String := none
deriving Repr, DecidableEq

/-- The caller-supplied filters of the `things_summary` tool (an absent
array filter and an empty one behave identically in the code, so both are
the empty list). -/
structure SummaryParams where
  includeCompleted : Bool := false
  areas : List String := []
  tags : List String := []
  projects : List String := []
  dateRange : Option DateRange := none
  includeInactive : Bool := false
deriving Repr, DecidableEq

/-- An `{id, name}` back-reference object. -/
structure RefObj where
  id : String
  name : String
deriving Repr, DecidableEq

/-- The discriminated kind of a task row (`row[3] === '0' ? 'task' :
row[3] === '1' ? 'project' : 'heading'`). -/
inductive TaskKind where
  | task : TaskKind
  | project : TaskKind
  | heading : TaskKind
deriving Repr, DecidableEq

/-- An assembled area before project/task attachment. -/
structure AreaBase where
  id : String
  name : String
  visible : Option Bool := none
  thingsUrl : String
deriving Repr, DecidableEq

/-- An assembled tag. -/
structure ThingsTag where
  id : String
  name : String
  shortcut : Option String := none
  taskCount : Nat := 0
  thingsUrl : String
deriving Repr, DecidableEq

/-- An assembled task or project (the `ThingsTask` shape of the code,
without the child-task list, which is attached in `ProjTree`). -/
structure TaskCore where
  id : String
  title : String
  kind : TaskKind
  notes : Option String := none
  creationDate : Option String := none
  startDate : Option String := none
  deadline : Option String := none
  area : Option RefObj := none
  project : Option RefObj := none
  tags : List RefObj := []
  checklistItems : Option (Int × Int) := none
  thingsUrl : String
deriving Repr, DecidableEq

/-- A project with its attached child tasks (`project.tasks`). -/
structure ProjTree where
  core : TaskCore
  tasks : List TaskCore := []
deriving Repr, DecidableEq

/-- An area with its attached projects and tasks (`area.projects`,
`area.tasks`; an empty list models the field being left unset). -/
structure AreaOut where
  base : AreaBase
  projects : List ProjTree := []
  tasks : List TaskCore := []
deriving Repr, DecidableEq

/-- The assembled summary, before sparse compression. -/
structure SummaryOut where
  totalOpenTasks : Nat
  totalActiveProjects : Nat
  totalAreas : Nat
  totalTags : Nat
  lastUpdated : String
  areas : List AreaOut
  inboxTasks : List TaskCore
  todayTasks : List TaskCore
  projects : List ProjTree
  tags : List ThingsTag
deriving Repr, DecidableEq

/-- Embedding of `generateThingsUrl` (src/unnamed/part_003 lines 194-214). -/
def generateThingsUrl (type : String) (id : Option String)
    (params : Option (List (String × String))) : String :=
  let url := "things:///" ++ type
  let url :=
    match id with
    | some i => url ++ "?id=" ++ encodeURIComponent i
    | none => url
  match params with
  | some ps =>
    let paramString :=
      String.intercalate "&" (ps.map (fun p => p.1 ++ "=" ++ encodeURIComponent p.2))
    if id.isSome then url ++ "&" ++ paramString else url ++ "?" ++ paramString
  | none => url

/-- The task rows loaded by the tasks query: `WHERE status = 0 AND
trashed = 0`, widened to `WHERE trashed = 0` when `includeCompleted`
(part_003 lines 249-253, 286-288). -/
def loadedTaskRows (db : ThingsDb) (includeCompleted : Bool) : List TaskRow :=
  if includeCompleted then db.tasks.filter (fun r => r.trashed == 0)
  else db.tasks.filter (fun r => r.status == 0 && r.trashed == 0)

/-- All areas, materialized (part_003 lines 256-267). -/
def mkAreasBase (db : ThingsDb) : List AreaBase :=
  db.areas.map (fun r =>
    { id := r.uuid
    , name := if r.title = "" then "Unnamed Area" else r.title
    , visible := if r.visible = "1" then some true else none
    , thingsUrl := generateThingsUrl "show" (some r.uuid) none })

/-- All tags, materialized with a zero task count (part_003 lines 276-283). -/
def mkTags (db : ThingsDb) : List ThingsTag :=
  db.tags.map (fun r =>
    { id := r.uuid
    , name := if r.title = "" then "Unnamed Tag" else r.title
    , shortcut := if r.shortcut = "" then none else some r.shortcut
    , taskCount := 0
    , thingsUrl := generateThingsUrl "show" none (some [("filter", r.title)]) })

/-- The project uuid-to-title map (part_003 lines 290-296): built from the
loaded rows of kind project; a later duplicate uuid overwrites an earlier
one, as `Map.set` does. -/
def projectMapGet (rows : List TaskRow) (pid : String) : Option String :=
  ((rows.filter (fun r => r.type == "1")).reverse.find? (fun r => r.uuid == pid)).map
    (fun r => r.title)

/-- Materialization of one loaded row into a `ThingsTask` (part_003 lines
298-332). The area back-reference is looked up in the full area list, the
project back-reference in the project map; an empty project title (falsy)
leaves the back-reference unset, as does a missing map entry. -/
def mkTaskCore (areas : List AreaBase) (pmap : String → Option String)
    (r : TaskRow) : TaskCore :=
  { id := r.uuid
  , title := if r.title = "" then "Untitled" else r.title
  , kind := if r.type = "0" then .task else if r.type = "1" then .project else .heading
  , notes := if r.notes = "" then none else some r.notes
  , creationDate :=
      let c := formatDate r.creationDate false
      if c = "" then none else some c
  , startDate :=
      let c := formatDate r.startDate true
      if c = "" then none else some c
  , deadline :=
      let c := formatDate r.deadline true
      if c = "" then none else some c
  , area :=
      match areas.find? (fun a => a.id == r.area) with
      | some a => some { id := a.id, name := a.name }
      | none => none
  , project :=
      if r.project = "" then none
      else
        match pmap r.project with
        | some t => if t = "" then none else some { id := r.project, name := t }
        | none => none
  , tags := []
  , checklistItems :=
      let tot := (jsParseInt r.checklistItemsCount).getD 0
      let opn := (jsParseInt r.openChecklistItemsCount).getD 0
      if tot > 0 || opn > 0 then some (tot, opn) else none
  , thingsUrl := generateThingsUrl "show" (some r.uuid) none }

/-- The list `allTasks` (part_003 line 298): every loaded row materialized, with the
project map drawn from the same loaded rows. -/
def mkAllTasks (db : ThingsDb) (includeCompleted : Bool) : List TaskCore :=
  let rows := loadedTaskRows db includeCompleted
  rows.map (mkTaskCore (mkAreasBase db) (projectMapGet rows))

/-- Replace the first list element satisfying `p` (the effect of mutating
the object returned by `Array.prototype.find`). -/
def modifyFirst {α : Type} (p : α → Bool) (f : α → α) : List α → List α
  | [] => []
  | x :: xs => if p x then f x :: xs else x :: modifyFirst p f xs

/-- The task-tag attachment loop (part_003 lines 335-344): each association
row appends `{id, name}` to the first matching task's tag list and
increments the first matching tag's count; rows with no matching task or
tag are skipped. -/
def attachTags (tasks : List TaskCore) (tags : List ThingsTag)
    (rows : List TaskTagRow) : List TaskCore × List ThingsTag :=
  rows.foldl
    (fun st row =>
      match st.2.find? (fun g => g.id == row.tags) with
      | some g =>
        if st.1.any (fun t => t.id == row.tasks) then
          (modifyFirst (fun t => t.id == row.tasks)
             (fun t => { t with tags := t.tags ++ [{ id := g.id, name := g.name }] })
             st.1,
           modifyFirst (fun g2 => g2.id == row.tags)
             (fun g2 => { g2 with taskCount := g2.taskCount + 1 })
             st.2)
        else st
      | none => st)
    (tasks, tags)

/-- The loaded tasks with their tag lists attached. -/
def tasksWithTags (db : ThingsDb) (includeCompleted : Bool) : List TaskCore :=
  (attachTags (mkAllTasks db includeCompleted) (mkTags db) db.taskTags).1

/-- The tags with their task counts attached. -/
def tagsWithCounts (db : ThingsDb) (includeCompleted : Bool) : List ThingsTag :=
  (attachTags (mkAllTasks db includeCompleted) (mkTags db) db.taskTags).2

/-- The tag filter (part_003 lines 346-352): with a non-empty filter set,
keep the tasks carrying at least one tag whose name is in the set. -/
def applyTagFilter (filterTags : List String) (ts : List TaskCore) : List TaskCore :=
  if filterTags.isEmpty then ts
  else ts.filter (fun t => t.tags.any (fun g => filterTags.contains g.name))

/-- The project filter (part_003 lines 354-360). -/
def applyProjectFilter (filterProjects : List String) (ts : List TaskCore) :
    List TaskCore :=
  if filterProjects.isEmpty then ts
  else ts.filter (fun t =>
    (t.kind == .project && filterProjects.contains t.title) ||
    (match t.project with
     | some p => filterProjects.contains p.name
     | none => false))

/-- The present dates of a task (`[creationDate, startDate,
deadline].filter(Boolean)`). -/
def datesOf (t : TaskCore) : List String :=
  ([t.creationDate, t.startDate, t.deadline].filterMap id).filter (fun d => d ≠ "")

/-- One date against the range: fails when a (truthy) `from` bound exceeds
it or a (truthy) `to` bound is below it. -/
def dateOk (dr : DateRange) (d : String) : Bool :=
  !(match dr.fromDate with
    | some f => f ≠ "" && d < f
    | none => false) &&
  !(match dr.toDate with
    | some tUp => tUp ≠ "" && tUp < d
    | none => false)

/-- The date-range filter (part_003 lines 362-372): with a range object
present, keep the tasks one of whose dates passes (a task with no dates
fails). -/
def applyDateFilter (dr : Option DateRange) (ts : List TaskCore) : List TaskCore :=
  match dr with
  | none => ts
  | some r => ts.filter (fun t => (datesOf t).any (dateOk r))

/-- The filtered task list after the three caller filters, in the order the
code applies them (tags, then projects, then date range). -/
def filteredTasksOf (db : ThingsDb) (p : SummaryParams) : List TaskCore :=
  applyDateFilter p.dateRange
    (applyProjectFilter p.projects
      (applyTagFilter p.tags (tasksWithTags db p.includeCompleted)))

/-- The partition `projects` (part_003 line 375). -/
def projectsOf (db : ThingsDb) (p : SummaryParams) : List TaskCore :=
  (filteredTasksOf db p).filter (fun t => t.kind == .project)

/-- The partition `tasks` (part_003 line 376). -/
def tasksOnlyOf (db : ThingsDb) (p : SummaryParams) : List TaskCore :=
  (filteredTasksOf db p).filter (fun t => t.kind == .task)

/-- The bucket `inboxTasks` (part_003 line 377): the filtered tasks with neither area
nor project. -/
def inboxTasksOf (db : ThingsDb) (p : SummaryParams) : List TaskCore :=
  (tasksOnlyOf db p).filter (fun t => t.area.isNone && t.project.isNone)

/-- The bucket `todayTasks` (part_003 lines 378-381). -/
def todayTasksOf (db : ThingsDb) (p : SummaryParams) (today : String) :
    List TaskCore :=
  (tasksOnlyOf db p).filter (fun t => t.startDate == some today)

/-- The projects with their child tasks attached (part_003 lines 393-398;
because the attachment mutates the shared project objects, the same
task-bearing projects appear in the area lists). -/
def projTreesOf (db : ThingsDb) (p : SummaryParams) : List ProjTree :=
  (projectsOf db p).map (fun pr =>
    { core := pr
    , tasks := (tasksOnlyOf db p).filter (fun t =>
        match t.project with
        | some ref => ref.id == pr.id
        | none => false) })

/-- The name-filtered areas (part_003 lines 270-273). -/
def filteredAreasOf (db : ThingsDb) (p : SummaryParams) : List AreaBase :=
  if p.areas.isEmpty then mkAreasBase db
  else (mkAreasBase db).filter (fun a => p.areas.contains a.name)

/-- Area attachment (part_003 lines 384-390): each filtered area receives
the projects whose area back-reference is it and the project-less tasks
whose area back-reference is it. -/
def areasOutOf (db : ThingsDb) (p : SummaryParams) : List AreaOut :=
  (filteredAreasOf db p).map (fun a =>
    { base := a
    , projects := (projTreesOf db p).filter (fun pt =>
        match pt.core.area with
        | some ref => ref.id == a.id
        | none => false)
    , tasks := (tasksOnlyOf db p).filter (fun t =>
        (match t.area with
         | some ref => ref.id == a.id
         | none => false) && t.project.isNone) })

/-- The list `activeAreas` (part_003 lines 400-406). -/
def activeAreasOf (db : ThingsDb) (p : SummaryParams) : List AreaOut :=
  if p.includeInactive then areasOutOf db p
  else (areasOutOf db p).filter (fun a => !a.projects.isEmpty || !a.tasks.isEmpty)

/-- The list `activeTags` (part_003 lines 408-410). -/
def activeTagsOf (db : ThingsDb) (p : SummaryParams) : List ThingsTag :=
  if p.includeInactive then tagsWithCounts db p.includeCompleted
  else (tagsWithCounts db p.includeCompleted).filter (fun g => g.taskCount > 0)

/-- The assembled summary (part_003 lines 412-433), before the final
`compressObject` pass. -/
def assembleSummary (db : ThingsDb) (p : SummaryParams) (today nowIso : String) :
    SummaryOut :=
  { totalOpenTasks := (tasksOnlyOf db p).length
  , totalActiveProjects := (projectsOf db p).length
  , totalAreas := (activeAreasOf db p).length
  , totalTags := (activeTagsOf db p).length
  , lastUpdated := nowIso
  , areas := activeAreasOf db p
  , inboxTasks := inboxTasksOf db p
  , todayTasks := todayTasksOf db p today
  , projects := projTreesOf db p
  , tags := activeTagsOf db p }

mutual

/-- Structural induction over `JVal` with membership hypotheses for the
nested lists. -/
theorem JVal.ind (motive : JVal → Prop)
    (hnull : motive .vnull) (hundef : motive .vundef)
    (hbool : ∀ b, motive (.vbool b)) (hnum : ∀ n, motive (.vnum n))
    (hstr : ∀ s, motive (.vstr s))
    (harr : ∀ l, (∀ v ∈ l, motive v) → motive (.varr l))
    (hobj : ∀ fs, (∀ p ∈ fs, motive p.2) → motive (.vobj fs)) :
    ∀ v, motive v
  | .vnull => hnull
  | .vundef => hundef
  | .vbool b => hbool b
  | .vnum n => hnum n
  | .vstr s => hstr s
  | .varr l => harr l (JVal.indList motive hnull hundef hbool hnum hstr harr hobj l)
  | .vobj fs => hobj fs (JVal.indFields motive hnull hundef hbool hnum hstr harr hobj fs)

theorem JVal.indList (motive : JVal → Prop)
    (hnull : motive .vnull) (hundef : motive .vundef)
    (hbool : ∀ b, motive (.vbool b)) (hnum : ∀ n, motive (.vnum n))
    (hstr : ∀ s, motive (.vstr s))
    (harr : ∀ l, (∀ v ∈ l, motive v) → motive (.varr l))
    (hobj : ∀ fs, (∀ p ∈ fs, motive p.2) → motive (.vobj fs)) :
    ∀ l : List JVal, ∀ v ∈ l, motive v
  | [], v, h => absurd h (List.not_mem_nil v)
  | x :: xs, v, h => by
    rcases List.mem_cons.mp h with h | h
    · exact h ▸ JVal.ind motive hnull hundef hbool hnum hstr harr hobj x
    · exact JVal.indList motive hnull hundef hbool hnum hstr harr hobj xs v h

theorem JVal.indFields (motive : JVal → Prop)
    (hnull : motive .vnull) (hundef : motive .vundef)
    (hbool : ∀ b, motive (.vbool b)) (hnum : ∀ n, motive (.vnum n))
    (hstr : ∀ s, motive (.vstr s))
    (harr : ∀ l, (∀ v ∈ l, motive v) → motive (.varr l))
    (hobj : ∀ fs, (∀ p ∈ fs, motive p.2) → motive (.vobj fs)) :
    ∀ fs : List (String × JVal), ∀ p ∈ fs, motive p.2
  | [], p, h => absurd h (List.not_mem_nil p)
  | x :: xs, p, h => by
    rcases List.mem_cons.mp h with h | h
    · exact h ▸ JVal.ind motive hnull hundef hbool hnum hstr harr hobj x.2
    · exact JVal.indFields motive hnull hundef hbool hnum hstr harr hobj xs p h

end

/-- The loop `compressList` is `List.map compressObject`. -/
theorem compressList_eq_map (l : List JVal) :
    compressList l = l.map compressObject := by
  induction l with
  | nil => rfl
  | cons x xs ih => simp [compressList, ih]

/-- Provenance of a field surviving `compressFields`: it comes from an input
field, its value is the compressed one, and the drop test failed on it. -/
theorem mem_compressFields {fs : List (String × JVal)} {p : String × JVal}
    (h : p ∈ compressFields fs) :
    ∃ v, (p.1, v) ∈ fs ∧ p.2 = compressObject v ∧ dropField p.1 p.2 = false := by
  induction fs with
  | nil => simp [compressFields] at h
  | cons x xs ih =>
    rw [compressFields] at h
    by_cases hd : dropField x.1 (compressObject x.2)
    · rw [if_pos hd] at h
      obtain ⟨v, hv, hcv, hdf⟩ := ih h
      exact ⟨v, List.mem_cons_of_mem _ hv, hcv, hdf⟩
    · rw [if_neg hd] at h
      rcases List.mem_cons.mp h with h | h
      · refine ⟨x.2, ?_, ?_, ?_⟩
        · rw [h]; exact List.mem_cons_self _ _
        · rw [h]
        · rw [h]; simpa using hd
      · obtain ⟨v, hv, hcv, hdf⟩ := ih h
        exact ⟨v, List.mem_cons_of_mem _ hv, hcv, hdf⟩

/-- The loop `compressFields` is the identity on a field list whose values are fixed
points of compression and which already pass the drop test. -/
theorem compressFields_eq_self {fs : List (String × JVal)}
    (h : ∀ p ∈ fs, compressObject p.2 = p.2 ∧ dropField p.1 p.2 = false) :
    compressFields fs = fs := by
  induction fs with
  | nil => rfl
  | cons x xs ih =>
    obtain ⟨hfix, hdrop⟩ := h x (List.mem_cons_self _ _)
    rw [compressFields, hfix, hdrop]
    simp only [Bool.false_eq_true, if_false]
    rw [ih (fun p hp => h p (List.mem_cons_of_mem _ hp))]

/-- Helper: mapping a function that is the identity on every member. -/
theorem List.map_eq_id_of_eq_id {α : Type} (f : α → α) {l : List α}
    (h : ∀ x ∈ l, f x = x) : l.map f = l := by
  induction l with
  | nil => rfl
  | cons x xs ih =>
    simp only [List.map_cons, h x (List.mem_cons_self _ _)]
    rw [ih (fun y hy => h y (List.mem_cons_of_mem _ hy))]

/-- Helper: filtering twice with the same predicate. -/
theorem List.filter_filter_self {α : Type} (p : α → Bool) (l : List α) :
    (l.filter p).filter p = l.filter p := by
  induction l with
  | nil => rfl
  | cons x xs ih =>
    by_cases hx : p x
    · simp [List.filter, hx, ih]
    · simp [List.filter, hx, ih]

/-- Elements of a filtered compressed list are fixed points whenever every
original element has the idempotence property. -/
theorem compress_fix_of_mem_filtered {l : List JVal}
    (ih : ∀ v ∈ l, compressObject (compressObject v) = compressObject v)
    {x : JVal} (hx : x ∈ (compressList l).filter keptInArray) :
    compressObject x = x := by
  have hx' : x ∈ compressList l := List.mem_of_mem_filter hx
  rw [compressList_eq_map] at hx'
  obtain ⟨u, hu, rfl⟩ := List.mem_map.mp hx'
  exact ih u hu

theorem compress_idem_aux : ∀ v : JVal,
    compressObject (compressObject v) = compressObject v := by
  intro v
  induction v using JVal.ind with
  | hnull => rfl
  | hundef => rfl
  | hbool b => rfl
  | hnum n => rfl
  | hstr s => rfl
  | harr l ih =>
    rw [compressObject]
    by_cases hf : ((compressList l).filter keptInArray).isEmpty
    · simp only [hf, if_true]
      rfl
    · simp only [hf, Bool.false_eq_true, if_false]
      rw [compressObject]
      have hfix : ∀ x ∈ (compressList l).filter keptInArray, compressObject x = x :=
        fun x hx => compress_fix_of_mem_filtered ih hx
      have hmap : compressList ((compressList l).filter keptInArray) =
          (compressList l).filter keptInArray := by
        rw [compressList_eq_map]
        exact List.map_eq_id_of_eq_id _ hfix
      rw [hmap]
      have hkept : ((compressList l).filter keptInArray).filter keptInArray =
          (compressList l).filter keptInArray := List.filter_filter_self _ _
      rw [hkept]
      simp only [hf, Bool.false_eq_true, if_false]
  | hobj fs ih =>
    rw [compressObject]
    by_cases hk : (compressFields fs).isEmpty
    · simp only [hk, if_true]
      rfl
    · simp only [hk, Bool.false_eq_true, if_false]
      rw [compressObject]
      have hself : compressFields (compressFields fs) = compressFields fs := by
        apply compressFields_eq_self
        intro p hp
        obtain ⟨v, hv, hcv, hdf⟩ := mem_compressFields hp
        refine ⟨?_, hdf⟩
        rw [hcv]
        exact ih (p.1, v) hv
      rw [hself]
      simp only [hk, Bool.false_eq_true, if_false]

/-- Unfolding `cleanArr` as a `List.all`. -/
theorem cleanArr_eq_all (l : List JVal) :
    cleanArr l = l.all (fun v => keptInArray v && cleanOut v) := by
  induction l with
  | nil => rfl
  | cons x xs ih => rw [cleanArr, List.all_cons, ih]

/-- Unfolding `cleanObj` as a `List.all`. -/
theorem cleanObj_eq_all (fs : List (String × JVal)) :
    cleanObj fs = fs.all (fun p => !dropField p.1 p.2 && cleanOut p.2) := by
  induction fs with
  | nil => rfl
  | cons x xs ih => rw [cleanObj, List.all_cons, ih]

/-- Surviving the tag filter implies membership in the input list. -/
theorem mem_of_tagFilter (s : List String) (ts : List TaskCore) (t : TaskCore)
    (h : t ∈ applyTagFilter s ts) : t ∈ ts := by
  unfold applyTagFilter at h
  by_cases he : s.isEmpty = true
  · simpa [he] using h
  · rw [if_neg (by simpa using he)] at h
    exact List.mem_of_mem_filter h

/-- Surviving the project filter implies membership in the input list. -/
theorem mem_of_projFilter (s : List String) (ts : List TaskCore) (t : TaskCore)
    (h : t ∈ applyProjectFilter s ts) : t ∈ ts := by
  unfold applyProjectFilter at h
  by_cases he : s.isEmpty = true
  · simpa [he] using h
  · rw [if_neg (by simpa using he)] at h
    exact List.mem_of_mem_filter h

/-- Surviving the date filter implies membership in the input list. -/
theorem mem_of_dateFilter (dr : Option DateRange) (ts : List TaskCore)
    (t : TaskCore) (h : t ∈ applyDateFilter dr ts) : t ∈ ts := by
  cases dr with
  | none => exact h
  | some r => exact List.mem_of_mem_filter h

/-! ## Concrete stores used as witnesses and counterexamples -/

/-- A store with one open task carrying tag `A` only, and tags `A`, `B`. -/
def c1Db : ThingsDb :=
  { areas := []
  , tags := [{ uuid := "G1", title := "A" }, { uuid := "G2", title := "B" }]
  , tasks := [{ uuid := "T1", title := "t" }]
  , taskTags := [{ tasks := "T1", tags := "G1" }] }

/-- A summary request filtering on the tag set `{A, B}`. -/
def c1Params : SummaryParams := { tags := ["A", "B"] }

/-- The materialized form of the task of `c1Db`. -/
def c1Task : TaskCore :=
  { id := "T1", title := "t", kind := .task
  , tags := [{ id := "G1", name := "A" }]
  , thingsUrl := generateThingsUrl "show" (some "T1") none }

/-- A store where an open task points to a completed project: the project
row is excluded by the default status predicate. -/
def c4Db : ThingsDb :=
  { tasks :=
      [{ uuid := "T1", title := "t", project := "P1" },
       { uuid := "P1", title := "Proj", type := "1", status := 3 }] }

/-- The default summary request. -/
def defaultParams : SummaryParams := {}

/-- A store with a single open inbox task. -/
def c9Db : ThingsDb := { tasks := [{ uuid := "T9" }] }

/-- The materialized form of the task of `c9Db` (a blank title defaults to
`Untitled`). -/
def c9Task : TaskCore :=
  { id := "T9", title := "Untitled", kind := .task
  , thingsUrl := generateThingsUrl "show" (some "T9") none }

/-- An update change set with both a terminal-state field and a title. -/
def c2ProjParams : UpdateProjectParams :=
  { id := "ID1", title := some "X", completed := some true }

/-- The same change set for the to-do tool. -/
def c2TodoParams : UpdateTodoParams :=
  { id := "ID1", title := some "X", completed := some true }

/-! ## Claim theorems -/

/-- C6: the sparse compressor is idempotent — for every value `x`,
`compress(compress(x)) = compress(x)`. -/
theorem claim_C6_compress_idempotent (x : JVal) :
    compressObject (compressObject x) = compressObject x :=
  compress_idem_aux x

/-- C5 counterexample: the claim says the output of `compress` contains no
empty-string value at any depth, including as elements inside arrays; but
the array filter drops only `null`/`undefined`, so `compress(["" ])`
returns `[""]`, whose element is the empty string. -/
theorem claim_C5_counterexample :
    compressObject (.varr [.vstr ""]) = .varr [.vstr ""] ∧
    containsBad (compressObject (.varr [.vstr ""])) = true := by
  constructor <;> rfl

/-- C5 amended: every array in the output of `compress` is non-empty with
no `null`/`undefined` element, and every object in the output is non-empty
with every field passing the drop test (so no field holds an empty object,
empty array, empty string, `null`, `undefined`, or a zero-zero
`checklistItems` pair); empty strings and zero-zero pairs can still occur
as array elements (and as the root value). -/
theorem claim_C5_amended (x : JVal) : cleanOut (compressObject x) = true := by
  induction x using JVal.ind with
  | hnull => rfl
  | hundef => rfl
  | hbool b => rfl
  | hnum n => rfl
  | hstr s => rfl
  | harr l ih =>
    rw [compressObject]
    by_cases hf : ((compressList l).filter keptInArray).isEmpty
    · simp only [hf, if_true]
      rfl
    · simp only [hf, Bool.false_eq_true, if_false]
      rw [cleanOut, cleanArr_eq_all, Bool.and_eq_true, List.all_eq_true]
      refine ⟨by simpa using hf, ?_⟩
      intro v hv
      have hkept : keptInArray v = true := List.of_mem_filter hv
      have hv' : v ∈ compressList l := List.mem_of_mem_filter hv
      rw [compressList_eq_map] at hv'
      obtain ⟨u, hu, rfl⟩ := List.mem_map.mp hv'
      rw [Bool.and_eq_true]
      exact ⟨hkept, ih u hu⟩
  | hobj fs ih =>
    rw [compressObject]
    by_cases hk : (compressFields fs).isEmpty
    · simp only [hk, if_true]
      rfl
    · simp only [hk, Bool.false_eq_true, if_false]
      rw [cleanOut, cleanObj_eq_all, Bool.and_eq_true, List.all_eq_true]
      refine ⟨by simpa using hk, ?_⟩
      intro p hp
      obtain ⟨v, hv, hcv, hdf⟩ := mem_compressFields hp
      rw [Bool.and_eq_true, hdf, hcv]
      exact ⟨rfl, ih (p.1, v) hv⟩

/-- C7: both date decoders return the absent value (the empty string) on
blank, `"NULL"`, and non-numeric input, and never throw — `formatDate` is a
total function and any internal exception is caught. Non-numeric is
rendered as: neither `parseInt` nor `parseFloat` finds a number. -/
theorem claim_C7_decode_total (s : String) (isDateField : Bool)
    (h : s = "" ∨ s = "NULL" ∨ (jsParseInt s = none ∧ jsParseFloat s = none)) :
    formatDate s isDateField = "" := by
  rcases h with h | h | ⟨h1, h2⟩
  · simp [formatDate, h]
  · simp [formatDate, h]
  · by_cases hs1 : s = ""
    · simp [formatDate, hs1]
    · by_cases hs2 : s = "NULL"
      · simp [formatDate, hs2]
      · cases isDateField <;>
          simp [formatDate, formatDateBody, formatDatePacked, hs1, hs2, h1, h2]

/-- C7 witness: concrete non-numeric, blank, and `"NULL"` inputs. -/
theorem claim_C7_witness :
    formatDate "abc" false = "" ∧ formatDate "abc" true = "" ∧
    formatDate "" false = "" ∧ formatDate "NULL" true = "" :=
  ⟨claim_C7_decode_total "abc" false (Or.inr (Or.inr ⟨by decide, by decide⟩)),
   claim_C7_decode_total "abc" true (Or.inr (Or.inr ⟨by decide, by decide⟩)),
   claim_C7_decode_total "" false (Or.inl rfl),
   claim_C7_decode_total "NULL" true (Or.inr (Or.inl rfl))⟩

/-- C8: the row query executor returns the empty row list whenever the
external process fails, and on success splits the trimmed output into rows
by newline and fields by the pipe delimiter; it is a total function (the
thrown process error is caught). -/
theorem claim_C8_query_executor (proc : String → Except Unit String)
    (dbPath query : String) :
    (∀ e, proc (sqlCommandString dbPath query) = .error e →
      executeSqlQuery proc dbPath query = []) ∧
    (∀ out, proc (sqlCommandString dbPath query) = .ok out →
      executeSqlQuery proc dbPath query =
        if jsTrim out = "" then []
        else (jsSplit (jsTrim out) '\n').map (fun row => jsSplit row '|')) := by
  constructor
  · intro e he
    simp [executeSqlQuery, he]
  · intro out hout
    simp only [executeSqlQuery, hout]

/-- C8 witness: a failing process yields `[]`; a succeeding one yields the
pipe/newline split of its output. -/
theorem claim_C8_witness :
    executeSqlQuery (fun _ => Except.error ()) "db" "q" = [] ∧
    executeSqlQuery (fun _ => Except.ok "a|b\nc") "db" "q" = [["a", "b"], ["c"]] := by
  constructor
  · exact (claim_C8_query_executor (fun _ => Except.error ()) "db" "q").1 () rfl
  · rw [(claim_C8_query_executor (fun _ => Except.ok "a|b\nc") "db" "q").2 "a|b\nc" rfl]
    decide

/-- C10: `buildThingsUrl` contributes a query part for exactly the
parameters whose value is neither `undefined` nor `null` nor the empty
string, in order — so a key appears in the query string iff the map binds
it to a defined, non-null, non-empty value, and an empty string can never
be passed through to clear a field. -/
theorem claim_C10_url_omits_empty (command : String) (params : List (String × PV)) :
    buildQueryParts command params =
      (params.filter (fun q => pvDefined q.2)).map
        (fun q => encodeURIComponent q.1 ++ "=" ++ encodePV command q.1 q.2) := by
  induction params with
  | nil => rfl
  | cons x xs ih =>
    by_cases hx : pvDefined x.2
    · rw [show x = (x.1, x.2) from rfl, buildQueryParts]
      rw [if_pos hx]
      simp only [List.filter_cons, hx, if_true, List.map_cons]
      rw [ih]
    · rw [show x = (x.1, x.2) from rfl, buildQueryParts]
      rw [if_neg hx]
      simp only [List.filter_cons, hx, Bool.false_eq_true, if_false]
      rw [ih]

/-- C1 counterexample: the claim says that with filter set `{A, B}` an item
carrying only tag `A` is excluded (AND semantics); but the code filters with
`some(...)` over `includes`, so the task of `c1Db`, which carries only tag
`A`, appears in the assembled result. -/
theorem claim_C1_counterexample :
    (inboxTasksOf c1Db c1Params).map (fun t => (t.id, t.tags.map (fun g => g.name))) =
      [("T1", ["A"])] := by
  decide

/-- C1 amended: the tag-name filter uses OR semantics — with a non-empty
filter set `S`, an item survives the tag filter iff it came from the input
list and carries at least one tag whose name is in `S`. -/
theorem claim_C1_amended (s : List String) (ts : List TaskCore) (t : TaskCore)
    (hs : s ≠ []) :
    t ∈ applyTagFilter s ts ↔ t ∈ ts ∧ ∃ g ∈ t.tags, g.name ∈ s := by
  unfold applyTagFilter
  rw [if_neg (by simpa using hs)]
  simp [List.mem_filter, List.any_eq_true]

/-- C1 amended, witness: the concrete single-tag task survives the
`{A, B}` filter because it carries tag `A`. -/
theorem claim_C1_amended_witness :
    c1Task ∈ applyTagFilter ["A", "B"] [c1Task] ↔
      c1Task ∈ [c1Task] ∧ ∃ g ∈ c1Task.tags, g.name ∈ ["A", "B"] :=
  claim_C1_amended ["A", "B"] [c1Task] c1Task (by decide)

/-- C2 counterexample: the claim says a change set with both a terminal
field and a title dispatches exactly two commands with no field dropped;
but both tools dispatch exactly one command, and `update_project` keeps
only the terminal attribute (the title is dropped). -/
theorem claim_C2_counterexample :
    (updateProjectDispatch "tok" c2ProjParams).length = 1 ∧
    (updateTodoDispatch "tok" c2TodoParams).length = 1 ∧
    (buildProjectJsonOp c2ProjParams).attributes = [("completed", JAttr.jbool true)] := by
  refine ⟨?_, rfl, rfl⟩
  rw [updateProjectDispatch, if_pos (by decide)]
  rfl

/-- C2 amended: each update tool dispatches exactly one command per
request. `update_todo` sends a single URL-scheme command that carries the
terminal-state fields alongside the others (its parameter list contains the
`completed` flag and the non-empty title when present). `update_project`
with a terminal-state field present sends a single JSON operation whose
attributes are drawn only from `completed`, `completion-date`, and
`canceled` — every other requested field is dropped. -/
theorem claim_C2_amended (tok : String) (p : UpdateTodoParams)
    (q : UpdateProjectParams) :
    (updateTodoDispatch tok p).length = 1 ∧
    (updateProjectDispatch tok q).length = 1 ∧
    (∀ b, p.completed = some b →
      ("completed", PV.bool b) ∈ updateTodoUrlParams tok p) ∧
    (∀ s, p.title = some s → s ≠ "" →
      ("title", PV.str s) ∈ updateTodoUrlParams tok p) ∧
    ((q.completed.isSome || q.canceled.isSome) = true →
      updateProjectDispatch tok q = [executeJsonOperationUrl (buildProjectJsonOp q) tok] ∧
      ∀ kv ∈ (buildProjectJsonOp q).attributes,
        kv.1 ∈ (["completed", "completion-date", "canceled"] : List String)) := by
  refine ⟨rfl, ?_, ?_, ?_, ?_⟩
  · rw [updateProjectDispatch]
    by_cases hq : (q.completed.isSome || q.canceled.isSome) = true
    · rw [if_pos hq]
      rfl
    · rw [if_neg hq]
      rfl
  · intro b hb
    simp [updateTodoUrlParams, optBoolParam, hb]
  · intro s hb hs
    simp [updateTodoUrlParams, optStrParam, hb, hs]
  · intro hq
    refine ⟨by rw [updateProjectDispatch, if_pos hq], ?_⟩
    intro kv hkv
    rw [buildProjectJsonOp] at hkv
    simp only [List.mem_append] at hkv
    rcases hkv with hkv | hkv
    · rcases hc : q.completed with _ | c
      · simp [hc] at hkv
      · simp only [hc] at hkv
        rcases List.mem_cons.mp hkv with h | h
        · rw [h]
          simp
        · rcases hcd : q.completionDate with _ | cd
          · simp [hcd] at h
          · simp only [hcd] at h
            by_cases hcde : cd = ""
            · simp [hcde] at h
            · simp only [if_neg hcde, List.mem_singleton] at h
              rw [h]
              simp
    · rcases hc : q.canceled with _ | c
      · simp [hc] at hkv
      · simp only [hc, List.mem_singleton] at hkv
        rw [hkv]
        simp

/-- C2 amended, witness: on the concrete change set
`{completed: true, title: "X"}`, the to-do parameter list carries both the
title and the completion flag, and the project tool dispatches the single
JSON operation. -/
theorem claim_C2_amended_witness :
    ("completed", PV.bool true) ∈ updateTodoUrlParams "tok" c2TodoParams ∧
    ("title", PV.str "X") ∈ updateTodoUrlParams "tok" c2TodoParams ∧
    updateProjectDispatch "tok" c2ProjParams =
      [executeJsonOperationUrl (buildProjectJsonOp c2ProjParams) "tok"] :=
  ⟨(claim_C2_amended "tok" c2TodoParams c2ProjParams).2.2.1 true rfl,
   (claim_C2_amended "tok" c2TodoParams c2ProjParams).2.2.2.1 "X" rfl (by decide),
   ((claim_C2_amended "tok" c2TodoParams c2ProjParams).2.2.2.2 (by decide)).1⟩

/-- C3 counterexample: the claim says every delete fails before any command
is dispatched when the authorization token is absent; but the delete tools
go through AppleScript and never consult the token — with no token in the
environment the delete command is still built and dispatched. -/
theorem claim_C3_counterexample :
    removeTodoAction none "T-1" = .ok [deleteTodoScript "T-1"] ∧
    removeProjectAction none "P-1" = .ok [deleteProjectScript "P-1"] :=
  ⟨rfl, rfl⟩

/-- C3 amended: updates of a to-do or project fail before any command is
built when the environment token is absent (or empty); deletes are
dispatched through the AppleScript channel without any token check. -/
theorem claim_C3_amended (p : UpdateTodoParams) (q : UpdateProjectParams)
    (id : String) (env : Option String) :
    updateTodoAction none p =
      .error "THINGS_AUTH_TOKEN environment variable is required for update operations" ∧
    updateProjectAction none q =
      .error "THINGS_AUTH_TOKEN environment variable is required for update operations" ∧
    updateTodoAction (some "") p =
      .error "THINGS_AUTH_TOKEN environment variable is required for update operations" ∧
    removeTodoAction env id = .ok [deleteTodoScript id] ∧
    removeProjectAction env id = .ok [deleteProjectScript id] :=
  ⟨rfl, rfl, rfl, rfl, rfl⟩

/-- C4 counterexample: the claim says a task pointing to a project excluded
by the status predicate still carries a resolved `{id, name}` back-reference;
but the project map is built from the status-filtered load, so in `c4Db`
(open task `T1` pointing to completed project `P1`, default request) the
loaded rows exclude `P1` and the assembled task carries no project
back-reference at all. -/
theorem claim_C4_counterexample :
    (loadedTaskRows c4Db false).map (fun r => r.uuid) = ["T1"] ∧
    (filteredTasksOf c4Db defaultParams).map (fun t => (t.id, t.project)) =
      [("T1", none)] := by
  constructor <;> decide

/-- C4 amended: tasks in the filtered result are drawn unchanged from the
task list materialized before the caller filters run — the area and project
back-references (resolved from the project map of the status-filtered load)
are independent of the tag, project-name, and date-range filters; a project
excluded by the status predicate, however, is absent from that map, and the
pointing task carries no project back-reference. -/
theorem claim_C4_amended (db : ThingsDb) (p : SummaryParams) (t : TaskCore)
    (h : t ∈ filteredTasksOf db p) : t ∈ tasksWithTags db p.includeCompleted := by
  unfold filteredTasksOf at h
  exact mem_of_tagFilter _ _ _
    (mem_of_projFilter _ _ _ (mem_of_dateFilter _ _ _ h))

/-- C4 amended, witness: the tag-filtered task of `c1Db` is the unchanged
materialized task. -/
theorem claim_C4_amended_witness : c1Task ∈ tasksWithTags c1Db false :=
  claim_C4_amended c1Db c1Params c1Task (by decide)

/-- C9: over the tasks that survive filtering, a task is in the assembled
`inboxTasks` iff it has kind task, no area back-reference, and no project
back-reference. -/
theorem claim_C9_inbox_iff (db : ThingsDb) (p : SummaryParams)
    (today nowIso : String) (t : TaskCore) (h : t ∈ filteredTasksOf db p) :
    t ∈ (assembleSummary db p today nowIso).inboxTasks ↔
      t.kind = .task ∧ t.area = none ∧ t.project = none := by
  have hr : (assembleSummary db p today nowIso).inboxTasks = inboxTasksOf db p := rfl
  rw [hr]
  unfold inboxTasksOf tasksOnlyOf
  simp only [List.mem_filter, h, true_and, Bool.and_eq_true,
    Option.isNone_iff_eq_none, beq_iff_eq, and_assoc]

/-- C9 witness: the single open task of `c9Db` is in the inbox of the
assembled summary, and indeed has kind task and no back-references. -/
theorem claim_C9_witness :
    c9Task ∈ (assembleSummary c9Db defaultParams "2025-01-01" "now").inboxTasks ↔
      c9Task.kind = .task ∧ c9Task.area = none ∧ c9Task.project = none :=
  claim_C9_inbox_iff c9Db defaultParams "2025-01-01" "now" c9Task (by decide)

end ThingsMcp
